import Mathlib

/-!
Verification development for the oc-mnemoria orchestration layer.

The TypeScript sources are shallowly embedded as executable Lean
definitions:

* the data model (`MemoryEntry`, `SearchResult`) from `src/types.ts`;
* the pure filtering core of `Mind.compact` from `src/core/mind.ts`
  (including a faithful model of the two JavaScript regular expressions
  it evaluates against marker contents);
* the per-agent chain/parent session maps of the `Mind` class
  (JavaScript `Map` insertion-order semantics, touch-on-read, eviction);
* the batch flush of `Mind.flushBatch`;
* the target resolution of `Mind.forget` / `Mind.resolveForgetTarget`;
* the export cache of `MnemoriaCli.getAllEntriesCached` and the
  enrichment fallbacks of `MnemoriaCli.enrichSearchResults` /
  `enrichTimelineEntries`;
* the atomic-rebuild step sequence of `MnemoriaCli.rebuild`, as a trace
  over an abstract file-system state with injected step failures;
* the circuit breaker of `src/plugin.ts`.

Asynchronous JavaScript code is modelled by explicit state passing: the
host runtime is single-threaded, so every `async` function is a sequence
of atomic segments separated by `await` suspension points, and
concurrency is an interleaving of such segments.
-/

/-- Data model of a persisted observation, from `MemoryEntry` in
`src/types.ts`.  `checksum` and `prev_checksum` are opaque integrity
fields owned by the external store. -/
structure MemoryEntry where
  id : String
  agent_name : String
  entry_type : String
  summary : String
  content : String
  timestamp : Int
  checksum : Int
  prev_checksum : Int
deriving Repr, DecidableEq

/-- Search result row from `src/types.ts`.  The score is an opaque
relevance number produced by the external engine; the orchestration
layer only carries it through, so its numeric type is immaterial and it
is modelled as an integer-scaled value. -/
structure SearchResult where
  id : String
  entry : MemoryEntry
  score : Int
deriving Repr, DecidableEq

/-! ### JavaScript string primitives

The compact/forget logic inspects strings with `startsWith`, `slice`,
`trim` and two regular expressions.  These are modelled over `List Char`
(one element per UTF-16 code unit in the ASCII range used here). -/

/-- Character class of the JavaScript `\s` (the ASCII part plus NBSP),
also the class removed by `String.prototype.trim`. -/
def jsWs (c : Char) : Bool :=
  c == ' ' || c == '\t' || c == '\n' || c == '\r' ||
    c == Char.ofNat 11 || c == Char.ofNat 12 || c == Char.ofNat 160

/-- Test that `pat` occurs at the head of `cs` (JavaScript
`String.prototype.startsWith`). -/
def leadsWith : List Char → List Char → Bool
  | [], _ => true
  | _ :: _, [] => false
  | a :: as, b :: bs => a == b && leadsWith as bs

/-- JavaScript `String.prototype.trim` on a character list. -/
def trimChars (cs : List Char) : List Char :=
  (((cs.dropWhile jsWs).reverse).dropWhile jsWs).reverse

/-- JavaScript `String.prototype.trim`. -/
def jsTrim (s : String) : String :=
  String.mk (trimChars s.data)

/-- JavaScript `s.slice(n)`: drop the first `n` code units. -/
def jsSliceFrom (s : String) (n : Nat) : String :=
  String.mk (s.data.drop n)

/-- JavaScript `s.slice(0, n)`: keep the first `n` code units. -/
def jsSliceTo (s : String) (n : Nat) : String :=
  String.mk (s.data.take n)

/-! ### The two marker regular expressions of `Mind.compact`

`compact` evaluates `content.match(/Original id:\s*(\S+)/)` and
`content.match(/Original summary:\s*(.+)/)`.  `String.prototype.match`
with a non-global regex returns the first match: the engine tries each
start position left to right; at a position the literal must occur,
then `\s*` greedily eats whitespace and backtracks until the capture
(`\S+`, or `.+` which excludes `'\n'`) can start. -/

/-- Attempt `/Original id:\s*(\S+)/`-style matching anchored at the head
of `cs`: literal `lit`, then `\s*`, then a non-empty `\S+` capture.
Backtracking `\s*` cannot help `\S+`, so only the maximal-skip attempt
can succeed. -/
def tryLitWsWordAt (lit cs : List Char) : Option (List Char) :=
  if leadsWith lit cs then
    let rest := (cs.drop lit.length).dropWhile jsWs
    let w := rest.takeWhile (fun c => !jsWs c)
    if w.isEmpty then none else some w
  else none

/-- Attempt the `.+` capture of `/Original summary:\s*(.+)/` after `\s*`
has consumed `j` characters of `rest`; `.` matches anything but `'\n'`. -/
def tryDotCaptureAt (rest : List Char) (j : Nat) : Option (List Char) :=
  match rest.drop j with
  | [] => none
  | c :: _ =>
      if c == '\n' then none
      else some ((rest.drop j).takeWhile (fun d => d != '\n'))

/-- Backtracking of the greedy `\s*`: try `j` consumed characters, then
`j - 1`, ... down to `0`. -/
def tryDotCaptureDesc (rest : List Char) : Nat → Option (List Char)
  | 0 => tryDotCaptureAt rest 0
  | j + 1 =>
      match tryDotCaptureAt rest (j + 1) with
      | some w => some w
      | none => tryDotCaptureDesc rest j

/-- Attempt `/Original summary:\s*(.+)/`-style matching anchored at the
head of `cs`. -/
def tryLitWsLineAt (lit cs : List Char) : Option (List Char) :=
  if leadsWith lit cs then
    let rest := cs.drop lit.length
    tryDotCaptureDesc rest (rest.takeWhile jsWs).length
  else none

/-- Scan of `String.prototype.match`: try the anchored matcher at every
start position, left to right, and return the first capture. -/
def scanFirst (tryAt : List Char → Option (List Char)) : List Char → Option (List Char)
  | [] => tryAt []
  | c :: cs =>
      match tryAt (c :: cs) with
      | some w => some w
      | none => scanFirst tryAt cs

/-- First capture of `content.match(/Original id:\s*(\S+)/)`, already
trimmed as in `originalId[1].trim()` (a no-op on a `\S+` capture). -/
def originalIdCapture (content : String) : Option String :=
  (scanFirst (tryLitWsWordAt "Original id:".data) content.data).map
    (fun w => String.mk (trimChars w))

/-- First capture of `content.match(/Original summary:\s*(.+)/)`,
trimmed as in `original[1].trim()`. -/
def originalSummaryCapture (content : String) : Option String :=
  (scanFirst (tryLitWsLineAt "Original summary:".data) content.data).map
    (fun w => String.mk (trimChars w))

/-! ### The pure core of `Mind.compact` (src/core/mind.ts) -/

/-- Reserved marker string `FORGOTTEN_MARKER_PREFIX` from
`src/constants.ts`. -/
def forgottenMarkerTag : String := "[FORGOTTEN] "

/-- Test of `entry.summary.startsWith(FORGOTTEN_MARKER_PREFIX)`. -/
def isMarkerEntry (e : MemoryEntry) : Bool :=
  leadsWith forgottenMarkerTag.data e.summary.data

/-- The forgotten-id set collected by `compact`: for every marker entry,
the trimmed summary suffix after the reserved marker string (when
non-empty) and the first `Original id:` capture of its content.  A list
stands in for the JavaScript `Set`; only membership is used. -/
def forgottenIdsOf (entries : List MemoryEntry) : List String :=
  entries.foldl
    (fun acc e =>
      if isMarkerEntry e then
        let fromSummary := jsTrim (jsSliceFrom e.summary forgottenMarkerTag.length)
        let acc1 := if fromSummary ≠ "" then acc ++ [fromSummary] else acc
        match originalIdCapture e.content with
        | some w => acc1 ++ [w]
        | none => acc1
      else acc)
    []

/-- The forgotten-summary set collected by `compact`: the first
`Original summary:` capture of every marker entry's content. -/
def forgottenSummariesOf (entries : List MemoryEntry) : List String :=
  entries.foldl
    (fun acc e =>
      if isMarkerEntry e then
        match originalSummaryCapture e.content with
        | some w => acc ++ [w]
        | none => acc
      else acc)
    []

/-- Cutoff timestamp of `compact`: `maxAgeDays ? Date.now() - maxAgeDays
* MS_PER_DAY : 0` (JavaScript truthiness: `0` is falsy). -/
def compactCutoff (now : Int) (maxAgeDays : Option Int) : Int :=
  match maxAgeDays with
  | none => 0
  | some n => if n = 0 then 0 else now - n * 86400000

/-- The keep-filter of `compact` for one entry. -/
def compactKeeps (fIds fSums : List String) (cutoff : Int) (e : MemoryEntry) : Bool :=
  if isMarkerEntry e then false
  else if fIds.contains e.id then false
  else if fSums.contains e.summary then false
  else if cutoff > 0 && e.timestamp > 0 && e.timestamp < cutoff then false
  else true

/-- The surviving entry list computed by `compact` before it calls
`rebuild`. -/
def compactKeptList (entries : List MemoryEntry) (cutoff : Int) : List MemoryEntry :=
  entries.filter (compactKeeps (forgottenIdsOf entries) (forgottenSummariesOf entries) cutoff)

/-- Result record of `compact`: counts plus whether `rebuild` ran. -/
structure CompactOutcome where
  kept : Nat
  removed : Nat
  keptEntries : List MemoryEntry
  rebuilt : Bool
deriving Repr, DecidableEq

/-- End-to-end pure model of `Mind.compact` over the exported entry
list. -/
def compactRun (entries : List MemoryEntry) (now : Int) (maxAgeDays : Option Int) :
    CompactOutcome :=
  let kept := compactKeptList entries (compactCutoff now maxAgeDays)
  { kept := kept.length
    removed := entries.length - kept.length
    keptEntries := kept
    rebuilt := entries.length - kept.length > 0 }

/-! ### JavaScript `Map` semantics (src/core/mind.ts session maps)

A JavaScript `Map` iterates in insertion order; `set` on an existing key
updates the value but keeps the key's position; `delete` removes it;
`keys().next().value` is the key in oldest position.  An association
list in insertion order models this exactly. -/

/-- Insertion-ordered map, modelling a JavaScript `Map`. -/
abbrev JsMap (α : Type) := List (String × α)

/-- JavaScript `map.get(k)`. -/
def jsMapGet {α : Type} (m : JsMap α) (k : String) : Option α :=
  (m.find? (fun p => p.1 == k)).map (fun p => p.2)

/-- JavaScript `map.set(k, v)`: update in place when the key exists,
else append at most-recently-inserted position. -/
def jsMapSet {α : Type} (m : JsMap α) (k : String) (v : α) : JsMap α :=
  if m.any (fun p => p.1 == k) then
    m.map (fun p => if p.1 == k then (k, v) else p)
  else m ++ [(k, v)]

/-- JavaScript `map.delete(k)`. -/
def jsMapDelete {α : Type} (m : JsMap α) (k : String) : JsMap α :=
  m.filter (fun p => p.1 != k)

/-- Cap `MAX_CHAIN_MAP_SIZE` of the per-agent session maps, from
`src/constants.ts`. -/
def maxChainMapSize : Nat := 50

/-- `Mind.evictIfNeeded`: when the map exceeds the cap, delete the key in
oldest position. -/
def evictIfNeeded {α : Type} (m : JsMap α) : JsMap α :=
  if m.length > maxChainMapSize then
    match m with
    | [] => m
    | p :: _ => jsMapDelete m p.1
  else m

/-- `Mind.touchKey`: move an existing key to most-recently-used position
by delete-then-set; absent keys are untouched. -/
def touchKey {α : Type} (m : JsMap α) (k : String) : JsMap α :=
  match jsMapGet m k with
  | some v => jsMapSet (jsMapDelete m k) k v
  | none => m

/-! ### The `Mind` per-agent session state (src/core/mind.ts) -/

/-- In-memory session state of the `Mind` class: the two bounded
per-agent maps `chainIds` and `parentIds` (`sessionKey` is the agent
name itself). -/
structure MindState where
  chainIds : JsMap String
  parentIds : JsMap String
deriving Repr, DecidableEq

/-- A hex digit as produced by Node's `Buffer.toString("hex")`. -/
def hexDigit (n : Nat) : Char :=
  if n < 10 then Char.ofNat (48 + n) else Char.ofNat (87 + n)

/-- Two-digit hex rendering of one byte. -/
def byteHex (b : Nat) : List Char :=
  [hexDigit (b % 256 / 16), hexDigit (b % 16)]

/-- `generateId` from `src/utils/helpers.ts`:
`randomBytes(8).toString("hex")`.  The eight random bytes are passed in
explicitly. -/
def generateId (bytes : Nat → Nat) : String :=
  String.mk (((List.range 8).map (fun i => byteHex (bytes i))).flatten)

/-- Synchronous head of `Mind.setIntent`, before the store write: a fresh
chain id is stored for the agent (with eviction) and the agent's parent
id is cleared. -/
def setIntentChains (st : MindState) (agent newChainId : String) : MindState :=
  { chainIds := evictIfNeeded (jsMapSet st.chainIds agent newChainId)
    parentIds := jsMapDelete st.parentIds agent }

/-- Tail of `Mind.setIntent`, after `cli.add` returned `addId`: the
agent's parent id is set (with eviction). -/
def setIntentFinish (st : MindState) (agent addId : String) : MindState :=
  { st with parentIds := evictIfNeeded (jsMapSet st.parentIds agent addId) }

/-- One whole `Mind.setIntent` call, parameterised by the generated
chain id and the id returned by the store. -/
def setIntentStep (st : MindState) (agent newChainId addId : String) : MindState :=
  setIntentFinish (setIntentChains st agent newChainId) agent addId

/-- `Mind.getCurrentChainId(agent)`: touch the key (moving it to
most-recently-used position), then read it.  Returns the value and the
updated state. -/
def getCurrentChainId (st : MindState) (agent : Option String) :
    Option String × MindState :=
  match agent with
  | none => (none, st)
  | some a =>
      let m := touchKey st.chainIds a
      (jsMapGet m a, { st with chainIds := m })

/-! ### `Mind.remember` (src/core/mind.ts) -/

/-- Caller input of `Mind.remember`.  The optional metadata arrays are
modelled as lists, `[]` standing for both an absent and an empty array
(JavaScript treats both as falsy via `?.length`). -/
structure RememberInput where
  rtype : String
  summary : String
  content : String
  agent : String
  tool : Option String
  filePaths : List String
  findings : List String
  patterns : List String
deriving Repr, DecidableEq

/-- `SUMMARY_MAX_LENGTH` from `src/constants.ts`. -/
def summaryMaxLength : Nat := 200

/-- The `parts` array built by `Mind.remember` in push order: caller
content, then the optional `Tool:` / `Files:` / `Findings:` /
`Patterns:` lines, then `ChainId:` when the agent has an open chain. -/
def rememberParts (st : MindState) (inp : RememberInput) : List String :=
  let chainId := (jsMapGet st.chainIds inp.agent).getD ""
  let p := [inp.content]
  let p := if inp.tool.getD "" ≠ "" then p ++ ["Tool: " ++ inp.tool.getD ""] else p
  let p := if inp.filePaths ≠ [] then
    p ++ ["Files: " ++ String.intercalate ", " inp.filePaths] else p
  let p := if inp.findings ≠ [] then
    p ++ ["Findings: " ++ String.intercalate "; " inp.findings] else p
  let p := if inp.patterns ≠ [] then
    p ++ ["Patterns: " ++ String.intercalate "; " inp.patterns] else p
  let p := if chainId ≠ "" then p ++ ["ChainId: " ++ chainId] else p
  p

/-- The `fullContent` argument `Mind.remember` passes to `cli.add`. -/
def rememberContentArg (st : MindState) (inp : RememberInput) : String :=
  String.intercalate "\n" (rememberParts st inp)

/-- The `truncatedSummary` argument `Mind.remember` passes to `cli.add`:
`input.summary.slice(0, SUMMARY_MAX_LENGTH)`. -/
def rememberSummaryArg (inp : RememberInput) : String :=
  jsSliceTo inp.summary summaryMaxLength

/-- State update of `Mind.remember` after `cli.add` returned `addId`. -/
def rememberStateAfter (st : MindState) (inp : RememberInput) (addId : String) :
    MindState :=
  { st with parentIds := evictIfNeeded (jsMapSet st.parentIds inp.agent addId) }

/-! ### `Mind.forget` and `Mind.resolveForgetTarget` (src/core/mind.ts) -/

/-- Outcome of target resolution in `forget`.  `missingTarget`,
`notFound` and `ambiguous` correspond to the three distinct errors the
method throws. -/
inductive ForgetOutcome where
  | missingTarget
  | notFound
  | ambiguous (hits : Nat)
  | resolved (entry : MemoryEntry)
deriving Repr, DecidableEq

/-- The non-marker entries (`resolveForgetTarget` resolves only among
entries whose summary does not carry the forgotten-marker string). -/
def nonMarkersOf (entries : List MemoryEntry) : List MemoryEntry :=
  entries.filter (fun e => !isMarkerEntry e)

/-- The non-marker entries sharing an exact summary, as filtered by the
summary branch of `resolveForgetTarget`. -/
def summaryHits (entries : List MemoryEntry) (s : String) : List MemoryEntry :=
  (nonMarkersOf entries).filter (fun e => e.summary == s)

/-- Guard plus `resolveForgetTarget`: reject when both `id` and `summary`
are absent or empty (JavaScript truthiness), otherwise resolve among
non-marker entries, by first exact id match when an id is given, else by
exact summary match with the zero/ambiguous error cases. -/
def forgetResolve (entries : List MemoryEntry) (tid tsum : Option String) :
    ForgetOutcome :=
  if tid.getD "" = "" ∧ tsum.getD "" = "" then ForgetOutcome.missingTarget
  else
    if tid.getD "" ≠ "" then
      match (nonMarkersOf entries).find? (fun e => e.id == tid.getD "") with
      | some e => ForgetOutcome.resolved e
      | none => ForgetOutcome.notFound
    else
      match summaryHits entries (tsum.getD "") with
      | [] => ForgetOutcome.notFound
      | [e] => ForgetOutcome.resolved e
      | _ => ForgetOutcome.ambiguous (summaryHits entries (tsum.getD "")).length

/-- The marker entry `forget` appends for a resolved target, with the id
and timestamp assigned by the external store passed in. -/
def forgetMarkerEntry (target : MemoryEntry) (reason agent markerId : String)
    (ts : Int) : MemoryEntry :=
  { id := markerId
    agent_name := agent
    entry_type := "warning"
    summary := forgottenMarkerTag ++ target.id
    content := "Reason: " ++ reason ++ "\nOriginal id: " ++ target.id ++
      "\nOriginal summary: " ++ target.summary
    timestamp := ts
    checksum := 0
    prev_checksum := 0 }

/-- Whole `forget` call over an append-only store: on resolution the
marker is appended and the store is otherwise untouched; on error the
store is unchanged. -/
def forgetApply (store : List MemoryEntry) (tid tsum : Option String)
    (reason agent markerId : String) (ts : Int) :
    ForgetOutcome × List MemoryEntry :=
  match forgetResolve store tid tsum with
  | ForgetOutcome.resolved e =>
      (ForgetOutcome.resolved e, store ++ [forgetMarkerEntry e reason agent markerId ts])
  | o => (o, store)

/-! ### `Mind.flushBatch` (src/core/mind.ts)

`flushBatch` first clears any pending timer, returns early when a flush
is already running or the queue is empty, and otherwise takes the whole
queue and writes it entry by entry.  The model passes in where the write
fails (`failAt`), the observations queued by other tasks while the
writes are awaited (`arrivals`, which `queueObservation` appends and may
schedule a timer for, `timerDuring`), and returns the externally
observable outcome. -/

/-- A queued observation (`PendingObservation`). -/
structure PendingObservation where
  otype : String
  summary : String
  content : String
  agent : String
deriving Repr, DecidableEq

/-- Observable outcome of one `flushBatch` call. -/
structure FlushOutcome where
  written : List PendingObservation
  queueAfter : List PendingObservation
  timerAfter : Bool
  flushingAfter : Bool
  logged : Bool
deriving Repr, DecidableEq

/-- Model of `Mind.flushBatch`.  `queue0`, `flushing0`, `timer0` are the
state on entry; `failAt = some i` makes the write of `batch[i]` throw;
all writes succeed otherwise.  The model returns normally in every case:
the catch block logs (`logged`) and never rethrows. -/
def flushBatch (queue0 : List PendingObservation) (flushing0 timer0 : Bool)
    (failAt : Option Nat) (arrivals : List PendingObservation)
    (timerDuring : Bool) : FlushOutcome :=
  if flushing0 || queue0.isEmpty then
    { written := [], queueAfter := queue0, timerAfter := false
      flushingAfter := flushing0, logged := false }
  else
    let batch := queue0
    match failAt with
    | some i =>
        if i < batch.length then
          let q := batch.drop i ++ arrivals
          { written := batch.take i, queueAfter := q
            timerAfter := if q.isEmpty then timerDuring else true
            flushingAfter := false, logged := true }
        else
          let q := arrivals
          { written := batch, queueAfter := q
            timerAfter := if q.isEmpty then timerDuring else true
            flushingAfter := false, logged := false }
    | none =>
        let q := arrivals
        { written := batch, queueAfter := q
          timerAfter := if q.isEmpty then timerDuring else true
          flushingAfter := false, logged := false }

/-! ### The export cache of `MnemoriaCli` (src/core/mnemoria-cli.ts)

`getAllEntriesCached` runs on a single-threaded event loop: its check of
the cache and of the in-flight marker is one atomic segment, so two
"concurrent" calls are two executions of that segment before either
export settles.  In-flight exports are identified by a number. -/

/-- Cache fields of `MnemoriaCli`: `exportCache` and `exportInFlight`. -/
structure CacheState where
  cache : Option (Int × List MemoryEntry)
  flight : Option Nat
deriving Repr, DecidableEq

/-- What one call to `getAllEntriesCached` did. -/
inductive GetOutcome where
  | hit (entries : List MemoryEntry)
  | joined (pid : Nat)
  | started (pid : Nat)
deriving Repr, DecidableEq

/-- Number of fresh export subprocess invocations an outcome caused. -/
def startedCount (o : GetOutcome) : Nat :=
  match o with
  | GetOutcome.started _ => 1
  | _ => 0

/-- The synchronous segment of `getAllEntriesCached` when the cache
misses: join the in-flight export, or start a fresh one. -/
def cacheMissStep (st : CacheState) (freshPid : Nat) : GetOutcome × CacheState :=
  match st.flight with
  | some pid => (GetOutcome.joined pid, st)
  | none => (GetOutcome.started freshPid, { st with flight := some freshPid })

/-- The synchronous segment of `getAllEntriesCached`. -/
def getAllEntriesCachedStep (st : CacheState) (now : Int) (freshPid : Nat) :
    GetOutcome × CacheState :=
  match st.cache with
  | some (expiresAt, entries) =>
      if expiresAt > now then (GetOutcome.hit entries, st)
      else cacheMissStep st freshPid
  | none => cacheMissStep st freshPid

/-- `EXPORT_CACHE_TTL_MS` from `src/constants.ts`. -/
def exportCacheTtlMs : Int := 2000

/-- Settlement of a successful export: the `.then` stores the cache
entry with a fresh expiry and the `.finally` clears the in-flight
marker. -/
def settleExportOk (entries : List MemoryEntry) (now : Int) : CacheState :=
  { cache := some (now + exportCacheTtlMs, entries), flight := none }

/-- Settlement of a failed export: only the `.finally` runs, clearing
the in-flight marker. -/
def settleExportErr (st : CacheState) : CacheState :=
  { st with flight := none }

/-- `invalidateExportCache`, called by every successful `add` and at the
end of every successful `rebuild`. -/
def invalidateExportCache (st : CacheState) : CacheState :=
  { st with cache := none }

/-! ### Enrichment fallbacks (src/core/mnemoria-cli.ts)

`enrichSearchResults` and `enrichTimelineEntries` ask the export cache
for the full entry list; the outcome of that call is passed in as an
`Except`.  Both catch every failure and fall back to the unenriched
input. -/

/-- Lookup key of `enrichSearchResults`. -/
def searchEnrichKey (t agent summary : String) : String :=
  t ++ ":" ++ agent ++ ":" ++ summary

/-- Lookup key of `enrichTimelineEntries`. -/
def timelineEnrichKey (agent : String) (ts : Int) (summary : String) : String :=
  agent ++ ":" ++ toString ts ++ ":" ++ summary

/-- `MnemoriaCli.enrichSearchResults`. -/
def enrichSearchResults (results : List SearchResult)
    (exported : Except String (List MemoryEntry)) : List SearchResult :=
  if results.isEmpty then results
  else
    match exported with
    | Except.error _ => results
    | Except.ok allEntries =>
        let lookup := allEntries.foldl
          (fun m e => jsMapSet m (searchEnrichKey e.entry_type e.agent_name e.summary) e)
          ([] : JsMap MemoryEntry)
        results.map (fun r =>
          match jsMapGet lookup
              (searchEnrichKey r.entry.entry_type r.entry.agent_name r.entry.summary) with
          | some full => { r with id := full.id, entry := full }
          | none => r)

/-- `MnemoriaCli.enrichTimelineEntries`. -/
def enrichTimelineEntries (entries : List MemoryEntry)
    (exported : Except String (List MemoryEntry)) : List MemoryEntry :=
  if entries.isEmpty then entries
  else
    match exported with
    | Except.error _ => entries
    | Except.ok allEntries =>
        let lookup := allEntries.foldl
          (fun m e => jsMapSet m (timelineEnrichKey e.agent_name e.timestamp e.summary) e)
          ([] : JsMap MemoryEntry)
        entries.map (fun e =>
          match jsMapGet lookup (timelineEnrichKey e.agent_name e.timestamp e.summary) with
          | some full => full
          | none => e)

/-! ### `MnemoriaCli.rebuild` (src/core/mnemoria-cli.ts)

`rebuild` builds a fresh store under a temporary directory, then swaps
it over the real store: `rmSync(storePath)`, then `renameSync`, with a
`cpSync` + `rmSync` fallback when the rename fails (cross-device), a
catch block that removes the temporary directory and rethrows, and a
best-effort removal of the temporary directory shell on success.  The
model records the sequence of abstract file-system states the operation
passes through, with failures injected at the store writes, at the
rename and at the fallback copy. -/

/-- Contents of one directory location: absent, an incomplete copy
(interrupted `cpSync`), or a complete store holding the given entries. -/
inductive DirData where
  | absent
  | incomplete
  | whole (entries : List MemoryEntry)
deriving Repr, DecidableEq

/-- Abstract file system seen by `rebuild`: the real store at
`this.storePath`, the temporary store at `tempDir/mnemoria`, and the
temporary directory shell. -/
structure RebuildFs where
  real : DirData
  temp : DirData
  tempDirPresent : Bool
deriving Repr, DecidableEq

/-- Injected failures for one `rebuild` run: `addFailsAt = some i` makes
the write of entry `i` into the temporary store throw; `renameOk = false`
makes `renameSync` throw (cross-device move); `copyOk = false` makes the
fallback `cpSync` throw partway. -/
structure RebuildFailSpec where
  addFailsAt : Option Nat
  renameOk : Bool
  copyOk : Bool
deriving Repr, DecidableEq

/-- States passed through while filling the temporary store with the
first `n` entries one by one. -/
def rebuildAddStates (orig kept : List MemoryEntry) (n : Nat) : List RebuildFs :=
  (List.range n).map (fun i =>
    { real := DirData.whole orig, temp := DirData.whole (kept.take (i + 1))
      tempDirPresent := true })

/-- The swap phase of `rebuild`, appended to the build-phase trace:
`rmSync` of the real store, then rename, or copy-then-delete, or — when
the copy also fails — the catch block's removal of the temporary
directory followed by the rethrow. -/
def rebuildSwap (orig kept : List MemoryEntry) (f : RebuildFailSpec)
    (trace : List RebuildFs) : List RebuildFs × Bool :=
  let afterRm : RebuildFs := { real := DirData.absent, temp := DirData.whole kept
                               tempDirPresent := true }
  if f.renameOk then
    let afterRename : RebuildFs := { real := DirData.whole kept, temp := DirData.absent
                                     tempDirPresent := true }
    let afterShellRm : RebuildFs := { afterRename with tempDirPresent := false }
    (trace ++ [afterRm, afterRename, afterShellRm], false)
  else if f.copyOk then
    let midCopy : RebuildFs := { real := DirData.incomplete, temp := DirData.whole kept
                                 tempDirPresent := true }
    let afterCopy : RebuildFs := { real := DirData.whole kept, temp := DirData.whole kept
                                   tempDirPresent := true }
    let afterTempRm : RebuildFs := { afterCopy with temp := DirData.absent }
    let afterShellRm : RebuildFs := { afterTempRm with tempDirPresent := false }
    (trace ++ [afterRm, midCopy, afterCopy, afterTempRm, afterShellRm], false)
  else
    let midCopy : RebuildFs := { real := DirData.incomplete, temp := DirData.whole kept
                                 tempDirPresent := true }
    let afterCatchRm : RebuildFs := { real := DirData.incomplete, temp := DirData.absent
                                      tempDirPresent := false }
    (trace ++ [afterRm, midCopy, afterCatchRm], true)

/-- Trace of one `rebuild(entries)` run: every abstract file-system
state in order, and whether the call threw.  The catch block removes the
whole temporary directory (ignoring cleanup errors) and rethrows the
original error. -/
def rebuildTrace (orig kept : List MemoryEntry) (f : RebuildFailSpec) :
    List RebuildFs × Bool :=
  let s0 : RebuildFs := { real := DirData.whole orig, temp := DirData.absent
                          tempDirPresent := false }
  let s1 : RebuildFs := { s0 with tempDirPresent := true }
  let s2 : RebuildFs := { s1 with temp := DirData.whole [] }
  let cleanup : RebuildFs := { real := DirData.whole orig, temp := DirData.absent
                               tempDirPresent := false }
  match f.addFailsAt with
  | some i =>
      if i < kept.length then
        ([s0, s1, s2] ++ rebuildAddStates orig kept i ++ [cleanup], true)
      else
        rebuildSwap orig kept f ([s0, s1, s2] ++ rebuildAddStates orig kept kept.length)
  | none =>
      rebuildSwap orig kept f ([s0, s1, s2] ++ rebuildAddStates orig kept kept.length)

/-- A complete on-disk copy of the data `rebuild` must preserve exists
in the state: the untouched original store, or a fully built replacement
at either location. -/
def intactCopyExists (orig kept : List MemoryEntry) (s : RebuildFs) : Bool :=
  s.real == DirData.whole orig || s.real == DirData.whole kept ||
    s.temp == DirData.whole kept

/-! ### The circuit breaker of src/plugin.ts -/

/-- `BREAKER_THRESHOLD`. -/
def breakerThreshold : Nat := 5

/-- `BREAKER_RESET_MS`. -/
def breakerResetMs : Int := 60000

/-- Module-level breaker state of `src/plugin.ts`: `hookFailureCount`
and `breakerOpenedAt`. -/
structure BreakerState where
  hookFailureCount : Nat
  breakerOpenedAt : Int
deriving Repr, DecidableEq

/-- The initial breaker state of a freshly loaded plugin. -/
def breakerInit : BreakerState := { hookFailureCount := 0, breakerOpenedAt := 0 }

/-- `isBreakerOpen`, with `Date.now()` passed in. -/
def isBreakerOpen (st : BreakerState) (now : Int) : Bool :=
  if st.hookFailureCount < breakerThreshold then false
  else if now - st.breakerOpenedAt ≥ breakerResetMs then false
  else true

/-- `recordHookSuccess`. -/
def recordHookSuccess : BreakerState :=
  { hookFailureCount := 0, breakerOpenedAt := 0 }

/-- `recordHookFailure`, with `Date.now()` passed in. -/
def recordHookFailure (st : BreakerState) (now : Int) : BreakerState :=
  let c := st.hookFailureCount + 1
  if c ≥ breakerThreshold ∧
      (st.breakerOpenedAt = 0 ∨ now - st.breakerOpenedAt ≥ breakerResetMs) then
    { hookFailureCount := c, breakerOpenedAt := now }
  else
    { hookFailureCount := c, breakerOpenedAt := st.breakerOpenedAt }

/-- A hook-path call site (`tool.execute.after` auto-capture,
`chat.message` intent capture): it consults `isBreakerOpen` and skips
the subprocess path entirely while the breaker is open; otherwise it
attempts the call and records the outcome.  The returned flag is whether
the subprocess path was taken. -/
def hookPathCall (st : BreakerState) (now : Int) (succeeds : Bool) :
    Bool × BreakerState :=
  if isBreakerOpen st now then (false, st)
  else (true, if succeeds then recordHookSuccess else recordHookFailure st now)

/-- A direct tool-invoked operation (the `remember` / `search_memory` /
`forget` / `compact` tool `execute` handlers): none of them consults the
breaker, so the subprocess call is always attempted and the breaker
state is untouched. -/
def directToolCall (st : BreakerState) : Bool × BreakerState :=
  (true, st)

/-! ### Claim-side definitions

Two definitions below follow the wording of the specification rather
than the source; they exist only to be compared with the source-derived
definitions above. -/

/-- A marker references its target by id (current form) when the summary
suffix after the reserved marker string is non-blank or the content has
an `Original id:` line; otherwise it is a legacy summary-only marker. -/
def markerHasIdRef (e : MemoryEntry) : Bool :=
  jsTrim (jsSliceFrom e.summary forgottenMarkerTag.length) != "" ||
    (originalIdCapture e.content).isSome

/-- Forgotten-summary set as worded by the claim: `Original summary:`
captures of legacy markers only (markers lacking an id reference). -/
def claimLegacySummariesOf (entries : List MemoryEntry) : List String :=
  entries.foldl
    (fun acc e =>
      if isMarkerEntry e && !markerHasIdRef e then
        match originalSummaryCapture e.content with
        | some w => acc ++ [w]
        | none => acc
      else acc)
    []

/-- The surviving entries of `compact()` as worded by the claim: drop
exactly the markers, the id-resolved targets, and — only for legacy
markers — the summary-resolved targets. -/
def claimCompactKept (entries : List MemoryEntry) : List MemoryEntry :=
  entries.filter (fun e =>
    !isMarkerEntry e && !(forgottenIdsOf entries).contains e.id &&
      !(claimLegacySummariesOf entries).contains e.summary)

/-- The content blob as worded by the claim: the caller-provided content
followed, in order, by a `Tool:` line when a tool is given, `Files:` /
`Findings:` / `Patterns:` lines when the corresponding metadata fields
are non-empty, and a `ChainId:` line when an open chain exists for the
agent. -/
def claimRememberBlob (st : MindState) (inp : RememberInput) : String :=
  let chainId := (jsMapGet st.chainIds inp.agent).getD ""
  let optLines :=
    (if inp.tool.getD "" ≠ "" then ["Tool: " ++ inp.tool.getD ""] else []) ++
    (if inp.filePaths ≠ [] then
      ["Files: " ++ String.intercalate ", " inp.filePaths] else []) ++
    (if inp.findings ≠ [] then
      ["Findings: " ++ String.intercalate "; " inp.findings] else []) ++
    (if inp.patterns ≠ [] then
      ["Patterns: " ++ String.intercalate "; " inp.patterns] else []) ++
    (if chainId ≠ "" then ["ChainId: " ++ chainId] else [])
  String.intercalate "\n" (inp.content :: optLines)

/-! ### Concrete entries used by counterexamples and witnesses -/

/-- Example entry `e1("to remove")` from the claimed compaction example. -/
def exRemove : MemoryEntry :=
  { id := "e1", agent_name := "build", entry_type := "discovery"
    summary := "to remove", content := "x", timestamp := 100
    checksum := 0, prev_checksum := 0 }

/-- Example entry `e2("to keep")` from the claimed compaction example. -/
def exKeep : MemoryEntry :=
  { id := "e2", agent_name := "build", entry_type := "discovery"
    summary := "to keep", content := "y", timestamp := 101
    checksum := 0, prev_checksum := 0 }

/-- Example marker `[FORGOTTEN] e1` from the claimed compaction example. -/
def exMarker : MemoryEntry :=
  { id := "m1", agent_name := "build", entry_type := "warning"
    summary := "[FORGOTTEN] e1", content := "Original id: e1", timestamp := 102
    checksum := 0, prev_checksum := 0 }

/-- A non-marker entry whose summary collides with `exShareB`. -/
def exShareA : MemoryEntry :=
  { id := "a", agent_name := "build", entry_type := "discovery"
    summary := "dup", content := "", timestamp := 1
    checksum := 0, prev_checksum := 0 }

/-- A second non-marker entry with the same summary as `exShareA`. -/
def exShareB : MemoryEntry :=
  { id := "b", agent_name := "plan", entry_type := "discovery"
    summary := "dup", content := "", timestamp := 2
    checksum := 0, prev_checksum := 0 }

/-- A current-form marker (it has both an id suffix and an `Original
id:` line) that also carries an `Original summary:` line, as every
marker written by `forget` does. -/
def exShareMarker : MemoryEntry :=
  { id := "m", agent_name := "build", entry_type := "warning"
    summary := "[FORGOTTEN] a"
    content := "Reason: r\nOriginal id: a\nOriginal summary: dup"
    timestamp := 3, checksum := 0, prev_checksum := 0 }

/-- A non-marker entry with timestamp `0`, as produced when an exported
record carries no timestamp. -/
def exZeroTs : MemoryEntry :=
  { id := "x", agent_name := "build", entry_type := "discovery"
    summary := "s", content := "c", timestamp := 0
    checksum := 0, prev_checksum := 0 }

/-- A non-marker entry with a small positive timestamp. -/
def exPosTs : MemoryEntry :=
  { id := "y", agent_name := "build", entry_type := "discovery"
    summary := "s2", content := "c2", timestamp := 1
    checksum := 0, prev_checksum := 0 }

/-- A queued observation used by the flush examples. -/
def exObs : PendingObservation :=
  { otype := "discovery", summary := "s", content := "c", agent := "build" }

/-- A second queued observation used by the flush examples. -/
def exObs2 : PendingObservation :=
  { otype := "pattern", summary := "s2", content := "c2", agent := "plan" }

/-! ### Helper lemmas about the JavaScript map model -/

theorem stringLength_mk (l : List Char) : (String.mk l).length = l.length := rfl

theorem stringMk_data (s : String) : String.mk s.data = s := rfl

theorem find?_key_update {α : Type} (t : JsMap α) (k b : String) (v : α)
    (hbk : b ≠ k) :
    (t.map (fun p => if p.1 == k then (k, v) else p)).find? (fun p => p.1 == b)
      = t.find? (fun p => p.1 == b) := by
  induction t with
  | nil => rfl
  | cons p t ih =>
      by_cases hp : (p.1 == k) = true
      · have hpk : p.1 = k := by simpa [beq_iff_eq] using hp
        have h1 : ((k : String) == b) = false := by
          simp [beq_iff_eq]; exact fun hh => hbk hh.symm
        have h2 : (p.1 == b) = false := by
          simp [hpk, beq_iff_eq]; exact fun hh => hbk hh.symm
        simp only [List.map_cons, hp, if_true]
        rw [List.find?_cons_of_neg _ (by simp [h1]),
          List.find?_cons_of_neg _ (by simp [h2]), ih]
      · have hp' : (p.1 == k) = false := by simpa using hp
        simp only [List.map_cons, hp', Bool.false_eq_true, if_false]
        by_cases hb : (p.1 == b) = true
        · rw [List.find?_cons_of_pos _ (by simp [hb]),
            List.find?_cons_of_pos _ (by simp [hb])]
        · rw [List.find?_cons_of_neg _ (by simpa using hb),
            List.find?_cons_of_neg _ (by simpa using hb), ih]

theorem find?_key_update_self {α : Type} (t : JsMap α) (k : String) (v : α) :
    (t.map (fun p => if p.1 == k then (k, v) else p)).find? (fun p => p.1 == k)
      = (t.find? (fun p => p.1 == k)).map (fun _ => (k, v)) := by
  induction t with
  | nil => rfl
  | cons p t ih =>
      by_cases hp : (p.1 == k) = true
      · simp only [List.map_cons, hp, if_true]
        have h1 : (((k, v) : String × α) :: t.map
              (fun p => if p.1 == k then (k, v) else p)).find? (fun p => p.1 == k)
            = some (k, v) := List.find?_cons_of_pos _ (by simp)
        have h2 : ((p :: t).find? (fun p => p.1 == k)) = some p :=
          List.find?_cons_of_pos _ hp
        rw [h1, h2]
        rfl
      · have hp' : (p.1 == k) = false := by simpa using hp
        simp only [List.map_cons, hp', Bool.false_eq_true, if_false]
        have h1 : (p :: t.map
              (fun p => if p.1 == k then (k, v) else p)).find? (fun p => p.1 == k)
            = (t.map (fun p => if p.1 == k then (k, v) else p)).find?
                (fun p => p.1 == k) := List.find?_cons_of_neg _ (by simpa using hp)
        have h2 : ((p :: t).find? (fun p => p.1 == k)) = t.find? (fun p => p.1 == k) :=
          List.find?_cons_of_neg _ (by simpa using hp)
        rw [h1, h2, ih]

theorem jsMapGet_set_self {α : Type} (m : JsMap α) (k : String) (v : α) :
    jsMapGet (jsMapSet m k v) k = some v := by
  unfold jsMapGet jsMapSet
  by_cases h : m.any (fun p => p.1 == k) = true
  · simp only [h, if_true]
    rw [find?_key_update_self]
    obtain ⟨x, hx, hpx⟩ := List.any_eq_true.mp h
    have hs : (m.find? (fun p => p.1 == k)).isSome = true :=
      List.find?_isSome.mpr ⟨x, hx, hpx⟩
    obtain ⟨y, hy⟩ := Option.isSome_iff_exists.mp hs
    simp [hy]
  · have h' : m.any (fun p => p.1 == k) = false := by
      rw [Bool.not_eq_true] at h; exact h
    simp only [h', Bool.false_eq_true, if_false]
    have happ : (m ++ [(k, v)]).find? (fun p => p.1 == k)
        = (m.find? (fun p => p.1 == k)).or ([(k, v)].find? (fun p => p.1 == k)) :=
      List.find?_append
    have hnone : m.find? (fun p => p.1 == k) = none :=
      List.find?_eq_none.mpr (fun x hx => by
        have hfalse := (List.any_eq_false.mp h') x hx
        simpa using hfalse)
    rw [happ, hnone]
    simp [List.find?]

theorem jsMapGet_set_other {α : Type} (m : JsMap α) (k b : String) (v : α)
    (hbk : b ≠ k) : jsMapGet (jsMapSet m k v) b = jsMapGet m b := by
  unfold jsMapGet jsMapSet
  by_cases h : m.any (fun p => p.1 == k) = true
  · simp only [h, if_true]
    rw [find?_key_update _ _ _ _ hbk]
  · have h' : m.any (fun p => p.1 == k) = false := by
      rw [Bool.not_eq_true] at h; exact h
    simp only [h', Bool.false_eq_true, if_false]
    have happ : (m ++ [(k, v)]).find? (fun p => p.1 == b)
        = (m.find? (fun p => p.1 == b)).or ([(k, v)].find? (fun p => p.1 == b)) :=
      List.find?_append
    have hkb : ((k : String) == b) = false := by
      simp only [beq_iff_eq, beq_eq_false_iff_ne, ne_eq]
      exact fun hh => hbk hh.symm
    rw [happ]
    cases hf : m.find? (fun p => p.1 == b) with
    | none => simp [List.find?, hkb]
    | some y => simp

theorem length_jsMapSet_update {α : Type} (m : JsMap α) (k : String) (v : α)
    (h : m.any (fun p => p.1 == k) = true) :
    (jsMapSet m k v).length = m.length := by
  unfold jsMapSet
  simp [h]

theorem length_jsMapSet_le {α : Type} (m : JsMap α) (k : String) (v : α) :
    (jsMapSet m k v).length ≤ m.length + 1 := by
  unfold jsMapSet
  by_cases h : m.any (fun p => p.1 == k) = true
  · simp [h]
  · simp [h]

theorem evictIfNeeded_of_le {α : Type} (m : JsMap α)
    (h : m.length ≤ maxChainMapSize) : evictIfNeeded m = m := by
  unfold evictIfNeeded
  have : ¬ m.length > maxChainMapSize := by omega
  simp [this]

theorem length_jsMapDelete_head {α : Type} (p : String × α) (t : JsMap α) :
    (jsMapDelete (p :: t) p.1).length ≤ t.length := by
  unfold jsMapDelete
  have hp : (p.1 != p.1) = false := by simp
  simp only [List.filter_cons, hp, Bool.false_eq_true, if_false]
  exact List.length_filter_le _ t

theorem length_evictIfNeeded {α : Type} (m : JsMap α)
    (h : m.length ≤ maxChainMapSize + 1) :
    (evictIfNeeded m).length ≤ maxChainMapSize := by
  cases m with
  | nil => simp [evictIfNeeded, maxChainMapSize]
  | cons p t =>
      unfold evictIfNeeded
      by_cases hgt : (p :: t).length > maxChainMapSize
      · simp only [hgt, if_true]
        change (jsMapDelete (p :: t) p.1).length ≤ maxChainMapSize
        have hd := length_jsMapDelete_head p t
        have ht : t.length ≤ maxChainMapSize := by
          simp only [List.length_cons] at h; omega
        omega
      · simp only [hgt, if_false]
        omega

theorem jsMapGet_evict_set_self {α : Type} (m : JsMap α) (k : String) (v : α)
    (h : m.length ≤ maxChainMapSize) :
    jsMapGet (evictIfNeeded (jsMapSet m k v)) k = some v := by
  by_cases hany : m.any (fun p => p.1 == k) = true
  · rw [evictIfNeeded_of_le _ (by rw [length_jsMapSet_update m k v hany]; exact h)]
    exact jsMapGet_set_self m k v
  · have hany' : m.any (fun p => p.1 == k) = false := by
      rw [Bool.not_eq_true] at hany; exact hany
    have hset : jsMapSet m k v = m ++ [(k, v)] := by
      unfold jsMapSet; simp [hany']
    by_cases hlen : (jsMapSet m k v).length ≤ maxChainMapSize
    · rw [evictIfNeeded_of_le _ hlen]
      exact jsMapGet_set_self m k v
    · cases mcase : m with
      | nil =>
          subst mcase
          rw [hset] at hlen
          simp [maxChainMapSize] at hlen
      | cons q u =>
          subst mcase
          rw [hset, List.cons_append]
          have hgt : (q :: (u ++ [(k, v)])).length > maxChainMapSize := by
            have h1 : jsMapSet (q :: u) k v = q :: (u ++ [(k, v)]) := by
              rw [hset, List.cons_append]
            rw [h1] at hlen
            omega
          unfold evictIfNeeded
          simp only [hgt, if_true]
          change jsMapGet (jsMapDelete (q :: (u ++ [(k, v)])) q.1) k = some v
          have hqk : (q.1 == k) = false := by
            have hq := List.any_eq_false.mp hany' q (List.mem_cons_self q u)
            simpa using hq
          have hqq : ((q.1 != q.1) = true) = False := by simp
          unfold jsMapDelete
          rw [List.filter_cons]
          simp only [hqq, if_false]
          rw [List.filter_append]
          have hkv : List.filter (fun x => x.1 != q.1) [(k, v)] = [(k, v)] := by
            have : ((k : String) != q.1) = true := by
              simp only [bne_iff_ne, ne_eq]
              intro hh
              rw [← hh] at hqk
              simp at hqk
            simp [List.filter, this]
          rw [hkv]
          unfold jsMapGet
          have happ : ((u.filter (fun x => x.1 != q.1)) ++ [(k, v)]).find?
              (fun p => p.1 == k)
              = ((u.filter (fun x => x.1 != q.1)).find? (fun p => p.1 == k)).or
                  ([(k, v)].find? (fun p => p.1 == k)) := List.find?_append
          have hnone : (u.filter (fun x => x.1 != q.1)).find? (fun p => p.1 == k)
              = none := by
            apply List.find?_eq_none.mpr
            intro x hx
            have hxu : x ∈ u := List.mem_of_mem_filter hx
            have hxm : x ∈ q :: u := List.mem_cons_of_mem q hxu
            have hxk := List.any_eq_false.mp hany' x hxm
            simpa using hxk
          rw [happ, hnone]
          simp [List.find?]

theorem jsMapGet_touch_self {α : Type} (m : JsMap α) (k : String) :
    jsMapGet (touchKey m k) k = jsMapGet m k := by
  unfold touchKey
  cases hv : jsMapGet m k with
  | none => exact hv
  | some v => simp [jsMapGet_set_self]

theorem jsMapDelete_no_key {α : Type} (m : JsMap α) (k : String) :
    (jsMapDelete m k).any (fun p => p.1 == k) = false := by
  apply List.any_eq_false.mpr
  intro x hx
  have := (List.mem_filter.mp hx).2
  simp only [bne_iff_ne, ne_eq, decide_eq_true_eq] at this
  simpa using this

theorem touchKey_getLast {α : Type} (m : JsMap α) (k : String) (v : α)
    (h : jsMapGet m k = some v) :
    (touchKey m k).getLast? = some (k, v) := by
  unfold touchKey
  rw [h]
  unfold jsMapSet
  rw [jsMapDelete_no_key]
  simp only [Bool.false_eq_true, if_false]
  exact List.getLast?_concat _

theorem evict_drops_oldest {α : Type} (p : String × α) (t : JsMap α)
    (h : (p :: t).length > maxChainMapSize) :
    jsMapGet (evictIfNeeded (p :: t)) p.1 = none := by
  unfold evictIfNeeded
  simp only [h, if_true]
  unfold jsMapGet
  have : (jsMapDelete (p :: t) p.1).find? (fun q => q.1 == p.1) = none := by
    apply List.find?_eq_none.mpr
    intro x hx
    have := (List.mem_filter.mp hx).2
    simp only [bne_iff_ne, ne_eq, decide_eq_true_eq] at this
    simpa using this
  rw [this]
  rfl

/-! ### Claim C2 — compaction semantics -/

theorem compactKeeps_zero_cutoff_iff (fIds fSums : List String) (e : MemoryEntry) :
    compactKeeps fIds fSums 0 e = true ↔
      isMarkerEntry e = false ∧ fIds.contains e.id = false ∧
        fSums.contains e.summary = false := by
  unfold compactKeeps
  cases h1 : isMarkerEntry e <;> cases h2 : fIds.contains e.id <;>
    cases h3 : fSums.contains e.summary <;> simp [h1, h2, h3]

/-- C2, counterexample.  The claim resolves targets by summary only for
legacy markers lacking an id reference, so on
`[exShareA, exShareB, exShareMarker]` — a current-form marker whose
target `exShareA` shares its summary with the unrelated `exShareB` — it
predicts that exactly `exShareB` survives.  The code inserts the
`Original summary:` capture of every marker into the forgotten-summary
set, so it also removes `exShareB` and keeps nothing. -/
theorem compact_summary_collateral_counterexample :
    compactKeptList [exShareA, exShareB, exShareMarker] 0 = [] ∧
      claimCompactKept [exShareA, exShareB, exShareMarker] = [exShareB] ∧
      compactKeptList [exShareA, exShareB, exShareMarker] 0 ≠
        claimCompactKept [exShareA, exShareB, exShareMarker] := by
  refine ⟨by decide, by decide, by decide⟩

/-- C2 (amended): an entry survives `compact()` exactly when it is not a
marker, its id is not in the forgotten-id set (marker summary suffixes
and `Original id:` captures), and its summary is not in the
forgotten-summary set collected from the `Original summary:` capture of
every marker — current-form markers included, not only legacy ones.  On
the claimed example `[e1, e2, marker]` the marker references `e1` by id
and carries no `Original summary:` line, so compaction keeps exactly
`e2` and reports `kept = 1, removed = 2`. -/
theorem compact_removes_markers_and_resolved_targets :
    (∀ (entries : List MemoryEntry) (e : MemoryEntry),
      e ∈ compactKeptList entries 0 ↔
        e ∈ entries ∧ isMarkerEntry e = false ∧
          (forgottenIdsOf entries).contains e.id = false ∧
          (forgottenSummariesOf entries).contains e.summary = false) ∧
    compactRun [exRemove, exKeep, exMarker] 0 none =
      { kept := 1, removed := 2, keptEntries := [exKeep], rebuilt := true } := by
  constructor
  · intro entries e
    unfold compactKeptList
    rw [List.mem_filter, compactKeeps_zero_cutoff_iff]
  · decide

/-- C2, witness: the characterisation applied at the claimed example
shows `e2` surviving. -/
theorem compact_removes_markers_and_resolved_targets_witness :
    exKeep ∈ compactKeptList [exRemove, exKeep, exMarker] 0 :=
  (compact_removes_markers_and_resolved_targets.1
    [exRemove, exKeep, exMarker] exKeep).mpr
    ⟨by decide, by decide, by decide, by decide⟩

/-! ### Claim C5 — age-based compaction -/

/-- C5, counterexample.  With `maxAgeDays = 1` and the clock at
`172800000` (two days), the cutoff is `86400000` and `exZeroTs` has
timestamp `0 < cutoff`, so the claim says it is dropped; the code keeps
it because the filter also requires `entry.timestamp > 0`. -/
theorem compact_age_zero_timestamp_counterexample :
    exZeroTs.timestamp < 172800000 - 1 * 86400000 ∧
      compactCutoff 172800000 (some 1) = 172800000 - 1 * 86400000 ∧
      compactKeptList [exZeroTs] (compactCutoff 172800000 (some 1)) = [exZeroTs] := by
  refine ⟨by decide, by decide, by decide⟩

/-- C5 (amended): for every `N > 0`, `compact(maxAgeDays = N)` drops an
entry whenever its timestamp is positive and below the cutoff
`now - N * 86400000`, independent of marker status; entries with a
non-positive timestamp are exempt from age pruning. -/
theorem compact_age_cutoff_drops_positive_timestamps
    (now n : Int) (entries : List MemoryEntry) (e : MemoryEntry)
    (hn : 0 < n) (ht : 0 < e.timestamp) (hc : e.timestamp < now - n * 86400000) :
    e ∉ compactKeptList entries (compactCutoff now (some n)) := by
  intro hmem
  have h2 := (List.mem_filter.mp hmem).2
  have hcut : compactCutoff now (some n) = now - n * 86400000 := by
    unfold compactCutoff
    have hne : ¬ n = 0 := by omega
    simp [hne]
  rw [hcut] at h2
  unfold compactKeeps at h2
  simp at h2
  rcases h2 with ⟨-, -, -, hdisj⟩
  omega

/-- C5, witness: an entry with timestamp `1` is dropped at cutoff
`86400000`. -/
theorem compact_age_cutoff_witness :
    exPosTs ∉ compactKeptList [exPosTs] (compactCutoff 172800000 (some 1)) :=
  compact_age_cutoff_drops_positive_timestamps 172800000 1 [exPosTs] exPosTs
    (by decide) (by decide) (by decide)

/-! ### Claim C3 — per-agent intent-chain state -/

/-- C3, counterexample.  `setIntent` stores the new chain id with a
plain `Map.set`, which keeps an existing key in its old position, so
re-insertion does not move the key to most-recently-used position as the
claim states: after re-inserting `"a"` the map still starts with `"a"`,
and its last (most-recently-used) slot holds `"b"`. -/
theorem setIntent_reinsertion_not_mru_counterexample :
    (setIntentChains { chainIds := [("a", "c1"), ("b", "c2")], parentIds := [] }
        "a" "c3").chainIds = [("a", "c3"), ("b", "c2")] ∧
      (setIntentChains { chainIds := [("a", "c1"), ("b", "c2")], parentIds := [] }
        "a" "c3").chainIds.getLast? ≠ some ("a", "c3") := by
  refine ⟨by decide, by decide⟩

theorem chainGet_after_setIntent_other (st : MindState) (a b c i : String)
    (hba : b ≠ a)
    (hlen : (jsMapSet st.chainIds a c).length ≤ maxChainMapSize) :
    jsMapGet (setIntentStep st a c i).chainIds b = jsMapGet st.chainIds b := by
  have hch : (setIntentStep st a c i).chainIds
      = evictIfNeeded (jsMapSet st.chainIds a c) := rfl
  rw [hch, evictIfNeeded_of_le _ hlen]
  exact jsMapGet_set_other st.chainIds a b c hba

/-- C3 (amended): `setIntent` always produces a 16-character chain id
and supersedes only that agent's chain: after two `setIntent` calls for
an agent only the second chain id is visible via `getCurrentChainId`,
and (so long as no eviction fires) a `setIntent` for one agent changes
neither the stored chain id of another agent nor the `ChainId:` line a
subsequent `remember` of that other agent embeds.  The two per-agent
maps are bounded by the fixed cap; a `getCurrentChainId` lookup moves
the key to most-recently-used position and over-full maps evict the key
in oldest position — but a `setIntent` re-insertion updates the value in
place without refreshing the key's position (see the counterexample). -/
theorem mind_per_agent_chain_state_ok :
    (∀ bytes : Nat → Nat, (generateId bytes).length = 16) ∧
    (∀ (st : MindState) (a c1 i1 c2 i2 : String),
      st.chainIds.length ≤ maxChainMapSize →
      (getCurrentChainId (setIntentStep (setIntentStep st a c1 i1) a c2 i2)
        (some a)).1 = some c2) ∧
    (∀ (st : MindState) (a b c i : String), b ≠ a →
      (jsMapSet st.chainIds a c).length ≤ maxChainMapSize →
      jsMapGet (setIntentStep st a c i).chainIds b = jsMapGet st.chainIds b) ∧
    (∀ (st : MindState) (a c i : String) (inp : RememberInput), inp.agent ≠ a →
      (jsMapSet st.chainIds a c).length ≤ maxChainMapSize →
      rememberContentArg (setIntentStep st a c i) inp = rememberContentArg st inp) ∧
    (∀ (m : JsMap String) (k v : String), jsMapGet m k = some v →
      (touchKey m k).getLast? = some (k, v)) ∧
    (∀ (p : String × String) (t : JsMap String),
      (p :: t).length > maxChainMapSize →
      jsMapGet (evictIfNeeded (p :: t)) p.1 = none) ∧
    (∀ (st : MindState) (a c i : String),
      st.chainIds.length ≤ maxChainMapSize →
      st.parentIds.length ≤ maxChainMapSize →
      (setIntentStep st a c i).chainIds.length ≤ maxChainMapSize ∧
        (setIntentStep st a c i).parentIds.length ≤ maxChainMapSize) := by
  refine ⟨?_, ?_, ?_, ?_, ?_, ?_, ?_⟩
  · intro bytes
    rfl
  · intro st a c1 i1 c2 i2 hlen
    have hch1 : (setIntentStep st a c1 i1).chainIds
        = evictIfNeeded (jsMapSet st.chainIds a c1) := rfl
    have l1 : (jsMapSet st.chainIds a c1).length ≤ maxChainMapSize + 1 :=
      le_trans (length_jsMapSet_le _ _ _) (by omega)
    have l2 : (setIntentStep st a c1 i1).chainIds.length ≤ maxChainMapSize := by
      rw [hch1]; exact length_evictIfNeeded _ l1
    have hch2 : (setIntentStep (setIntentStep st a c1 i1) a c2 i2).chainIds
        = evictIfNeeded (jsMapSet (setIntentStep st a c1 i1).chainIds a c2) := rfl
    have hget : (getCurrentChainId (setIntentStep (setIntentStep st a c1 i1) a c2 i2)
        (some a)).1 = jsMapGet
          (touchKey (setIntentStep (setIntentStep st a c1 i1) a c2 i2).chainIds a) a := rfl
    rw [hget, jsMapGet_touch_self, hch2]
    exact jsMapGet_evict_set_self _ a c2 l2
  · intro st a b c i hba hlen
    exact chainGet_after_setIntent_other st a b c i hba hlen
  · intro st a c i inp hni hlen
    have hg := chainGet_after_setIntent_other st a inp.agent c i hni hlen
    unfold rememberContentArg rememberParts
    rw [hg]
  · intro m k v h
    exact touchKey_getLast m k v h
  · intro p t h
    exact evict_drops_oldest p t h
  · intro st a c i h1 h2
    constructor
    · have : (setIntentStep st a c i).chainIds
          = evictIfNeeded (jsMapSet st.chainIds a c) := rfl
      rw [this]
      exact length_evictIfNeeded _ (le_trans (length_jsMapSet_le _ _ _) (by omega))
    · have hpar : (setIntentStep st a c i).parentIds
          = evictIfNeeded (jsMapSet (jsMapDelete st.parentIds a) a i) := rfl
      rw [hpar]
      apply length_evictIfNeeded
      have hd : (jsMapDelete st.parentIds a).length ≤ st.parentIds.length :=
        List.length_filter_le _ _
      exact le_trans (length_jsMapSet_le _ _ _) (by omega)

/-- C3, witness: the amended properties at concrete states. -/
theorem mind_per_agent_chain_state_witness :
    (generateId (fun _ => 171)).length = 16 ∧
    (getCurrentChainId (setIntentStep (setIntentStep ⟨[], []⟩ "build" "c1" "i1")
        "build" "c2" "i2") (some "build")).1 = some "c2" ∧
    jsMapGet (setIntentStep ⟨[("plan", "p0")], []⟩ "build" "c" "i").chainIds "plan"
      = some "p0" ∧
    (touchKey [("a", "1"), ("b", "2")] "a").getLast? = some ("a", "1") := by
  have h := mind_per_agent_chain_state_ok
  exact ⟨h.1 _,
    h.2.1 ⟨[], []⟩ "build" "c1" "i1" "c2" "i2" (by decide),
    h.2.2.1 ⟨[("plan", "p0")], []⟩ "build" "plan" "c" "i" (by decide) (by decide),
    h.2.2.2.2.1 [("a", "1"), ("b", "2")] "a" "1" (by decide)⟩

/-! ### Claim C4 — remember content composition and summary truncation -/

theorem leadsWith_take (l : List Char) (n : Nat) :
    leadsWith (l.take n) l = true := by
  induction l generalizing n with
  | nil => cases n <;> rfl
  | cons c cs ih =>
      cases n with
      | zero => rfl
      | succ m =>
          simp only [List.take_succ_cons]
          unfold leadsWith
          simp [ih m]

/-- C4 (confirmed): the blob `remember` hands to the gateway's add
operation is exactly the caller content followed, in order, by the
optional `Tool:`, `Files:`, `Findings:`, `Patterns:` and `ChainId:`
lines as the claim words them, and the summary argument is the
caller summary truncated to `SUMMARY_MAX_LENGTH`: it never exceeds the
cap, is always a leading piece of the original, and equals the original
whenever that already fits. -/
theorem remember_blob_and_truncation_ok :
    (∀ (st : MindState) (inp : RememberInput),
      rememberContentArg st inp = claimRememberBlob st inp) ∧
    (∀ inp : RememberInput,
      (rememberSummaryArg inp).length ≤ summaryMaxLength) ∧
    (∀ inp : RememberInput,
      leadsWith (rememberSummaryArg inp).data inp.summary.data = true) ∧
    (∀ inp : RememberInput, inp.summary.length ≤ summaryMaxLength →
      rememberSummaryArg inp = inp.summary) := by
  refine ⟨?_, ?_, ?_, ?_⟩
  · intro st inp
    simp only [rememberContentArg, rememberParts, claimRememberBlob]
    split_ifs <;> simp
  · intro inp
    unfold rememberSummaryArg jsSliceTo
    rw [stringLength_mk, List.length_take]
    omega
  · intro inp
    unfold rememberSummaryArg jsSliceTo
    exact leadsWith_take inp.summary.data summaryMaxLength
  · intro inp h
    unfold rememberSummaryArg jsSliceTo
    rw [List.take_of_length_le h]

/-- C4, witness: a summary within the cap is passed through unchanged. -/
theorem remember_blob_and_truncation_witness :
    rememberSummaryArg
        { rtype := "discovery", summary := "short", content := "body"
          agent := "build", tool := some "read", filePaths := []
          findings := [], patterns := [] } = "short" :=
  remember_blob_and_truncation_ok.2.2.2 _ (by decide)

/-! ### Claim C7 — batch flush partial failure -/

/-- C7, counterexample.  A `flushBatch` call while another flush is
running is not a no-op: it still clears the pending flush timer before
the early return (the code clears `batchTimer` before checking
`this.flushing`), so with the timer armed the call leaves the state
changed. -/
theorem flushBatch_busy_clears_timer_counterexample :
    flushBatch [exObs] true true none [] false =
      { written := [], queueAfter := [exObs], timerAfter := false
        flushingAfter := true, logged := false } ∧
      (flushBatch [exObs] true true none [] false).timerAfter ≠ true := by
  refine ⟨by decide, by decide⟩

/-- C7 (amended): when a write fails at position `i` of the batch, the
already-written entries `0..i-1` are not re-queued, the suffix from `i`
is placed back at the front of the queue in original order, the error is
logged rather than raised, and a delayed flush is re-armed whenever the
queue is non-empty at completion; on success the queue holds only the
arrivals and is likewise re-armed when non-empty.  A call while another
flush is running leaves the queue and flags unchanged except that it
cancels any pending flush timer. -/
theorem flushBatch_partial_failure_ok :
    (∀ (q : List PendingObservation) (i : Nat) (t0 : Bool)
        (arr : List PendingObservation) (td : Bool), q ≠ [] → i < q.length →
      (flushBatch q false t0 (some i) arr td).written = q.take i ∧
      (flushBatch q false t0 (some i) arr td).queueAfter = q.drop i ++ arr ∧
      (flushBatch q false t0 (some i) arr td).logged = true ∧
      (flushBatch q false t0 (some i) arr td).flushingAfter = false ∧
      ((flushBatch q false t0 (some i) arr td).queueAfter ≠ [] →
        (flushBatch q false t0 (some i) arr td).timerAfter = true)) ∧
    (∀ (q : List PendingObservation) (t0 : Bool)
        (arr : List PendingObservation) (td : Bool), q ≠ [] →
      (flushBatch q false t0 none arr td).written = q ∧
      (flushBatch q false t0 none arr td).queueAfter = arr ∧
      (flushBatch q false t0 none arr td).logged = false ∧
      (arr ≠ [] → (flushBatch q false t0 none arr td).timerAfter = true)) ∧
    (∀ (q : List PendingObservation) (t0 : Bool) (fa : Option Nat)
        (arr : List PendingObservation) (td : Bool),
      flushBatch q true t0 fa arr td =
        { written := [], queueAfter := q, timerAfter := false
          flushingAfter := true, logged := false }) := by
  refine ⟨?_, ?_, ?_⟩
  · intro q i t0 arr td hqne hi
    have hq : q.isEmpty = false := by
      cases q with
      | nil => exact absurd rfl hqne
      | cons a l => rfl
    refine ⟨by simp [flushBatch, hq, hi], by simp [flushBatch, hq, hi],
      by simp [flushBatch, hq, hi], by simp [flushBatch, hq, hi], ?_⟩
    intro hne
    simp only [flushBatch, hq, Bool.or_false, Bool.false_eq_true, if_false, hi,
      if_true] at hne ⊢
    have h2 : (q.drop i ++ arr).isEmpty = false := by
      cases hc : q.drop i ++ arr with
      | nil => rw [hc] at hne; simp at hne
      | cons a l => rfl
    simp [h2]
  · intro q t0 arr td hqne
    have hq : q.isEmpty = false := by
      cases q with
      | nil => exact absurd rfl hqne
      | cons a l => rfl
    refine ⟨by simp [flushBatch, hq], by simp [flushBatch, hq],
      by simp [flushBatch, hq], ?_⟩
    intro hne
    have h2 : arr.isEmpty = false := by
      cases hc : arr with
      | nil => exact absurd hc hne
      | cons a l => rfl
    simp [flushBatch, hq, h2]
  · intro q t0 fa arr td
    simp [flushBatch]

/-- C7, witness: a two-entry batch failing at position `1` keeps the
written head out of the queue and re-queues the tail ahead of the
arrival. -/
theorem flushBatch_partial_failure_witness :
    (flushBatch [exObs, exObs2] false false (some 1) [exObs] false).written
        = [exObs] ∧
      (flushBatch [exObs, exObs2] false false (some 1) [exObs] false).queueAfter
        = [exObs2, exObs] ∧
      (flushBatch [exObs, exObs2] false false (some 1) [exObs] false).timerAfter
        = true := by
  have h := flushBatch_partial_failure_ok.1 [exObs, exObs2] 1 false [exObs] false
    (by decide) (by decide)
  refine ⟨h.1, ?_, h.2.2.2.2 (by decide)⟩
  rw [h.2.1]
  rfl

/-! ### Claim C8 — forget target resolution -/

/-- C8, counterexample.  The claim requires exactly one of `id` or
`summary`; the code only rejects the call when both are missing, and
resolves by id when both are supplied. -/
theorem forget_both_id_and_summary_accepted_counterexample :
    forgetResolve [exShareA] (some "a") (some "dup")
      = ForgetOutcome.resolved exShareA := by
  decide

/-- C8 (amended): `forget` requires at least one of `id` or `summary`
(with id taking precedence when both are given); it resolves the target
only among non-marker entries, fails with the not-found error on zero
matches, fails with the distinct ambiguity error when a summary lookup
matches more than one non-marker entry, succeeds by id regardless of
summary collisions, and on success appends a marker entry referencing
the resolved target's id and summary while leaving the store otherwise
untouched. -/
theorem forget_resolution_ok :
    (∀ (entries : List MemoryEntry) (tid tsum : Option String),
      tid.getD "" = "" → tsum.getD "" = "" →
      forgetResolve entries tid tsum = ForgetOutcome.missingTarget) ∧
    (∀ (entries : List MemoryEntry) (tid tsum : Option String) (e : MemoryEntry),
      forgetResolve entries tid tsum = ForgetOutcome.resolved e →
      e ∈ entries ∧ isMarkerEntry e = false) ∧
    (∀ (entries : List MemoryEntry) (i : String) (tsum : Option String)
        (e : MemoryEntry), i ≠ "" →
      (nonMarkersOf entries).find? (fun x => x.id == i) = some e →
      forgetResolve entries (some i) tsum = ForgetOutcome.resolved e) ∧
    (∀ (entries : List MemoryEntry) (i : String) (tsum : Option String), i ≠ "" →
      (nonMarkersOf entries).find? (fun x => x.id == i) = none →
      forgetResolve entries (some i) tsum = ForgetOutcome.notFound) ∧
    (∀ (entries : List MemoryEntry) (s1 : String), s1 ≠ "" →
      summaryHits entries s1 = [] →
      forgetResolve entries none (some s1) = ForgetOutcome.notFound) ∧
    (∀ (entries : List MemoryEntry) (s1 : String) (e : MemoryEntry), s1 ≠ "" →
      summaryHits entries s1 = [e] →
      forgetResolve entries none (some s1) = ForgetOutcome.resolved e) ∧
    (∀ (entries : List MemoryEntry) (s1 : String) (a b : MemoryEntry)
        (t : List MemoryEntry), s1 ≠ "" →
      summaryHits entries s1 = a :: b :: t →
      forgetResolve entries none (some s1)
        = ForgetOutcome.ambiguous (a :: b :: t).length) ∧
    (∀ (store : List MemoryEntry) (tid tsum : Option String)
        (reason agent mid : String) (ts : Int) (e : MemoryEntry),
      forgetResolve store tid tsum = ForgetOutcome.resolved e →
      forgetApply store tid tsum reason agent mid ts
          = (ForgetOutcome.resolved e,
             store ++ [forgetMarkerEntry e reason agent mid ts]) ∧
        (forgetMarkerEntry e reason agent mid ts).summary
          = forgottenMarkerTag ++ e.id) := by
  refine ⟨?_, ?_, ?_, ?_, ?_, ?_, ?_, ?_⟩
  · intro entries tid tsum h1 h2
    unfold forgetResolve
    rw [if_pos ⟨h1, h2⟩]
  · intro entries tid tsum e h
    unfold forgetResolve at h
    by_cases hb : tid.getD "" = "" ∧ tsum.getD "" = ""
    · rw [if_pos hb] at h; cases h
    · rw [if_neg hb] at h
      by_cases hid : tid.getD "" ≠ ""
      · rw [if_pos hid] at h
        cases hf : (nonMarkersOf entries).find? (fun x => x.id == tid.getD "") with
        | none => rw [hf] at h; cases h
        | some x =>
            rw [hf] at h
            injection h with hxe
            subst hxe
            have hx := List.mem_of_find?_eq_some hf
            have hm := List.mem_filter.mp hx
            exact ⟨hm.1, by simpa using hm.2⟩
      · rw [if_neg hid] at h
        cases hh : summaryHits entries (tsum.getD "") with
        | nil => rw [hh] at h; cases h
        | cons x t =>
            cases t with
            | nil =>
                rw [hh] at h
                injection h with hxe
                subst hxe
                have hx : x ∈ summaryHits entries (tsum.getD "") := by
                  rw [hh]; exact List.mem_cons_self x []
                unfold summaryHits nonMarkersOf at hx
                have h1 := List.mem_filter.mp hx
                have h2 := List.mem_filter.mp h1.1
                exact ⟨h2.1, by simpa using h2.2⟩
            | cons y u => rw [hh] at h; cases h
  · intro entries i tsum e hi hf
    unfold forgetResolve
    rw [if_neg (by simp [hi]), if_pos (by simpa using hi)]
    simp only [Option.getD_some]
    rw [hf]
  · intro entries i tsum hi hf
    unfold forgetResolve
    rw [if_neg (by simp [hi]), if_pos (by simpa using hi)]
    simp only [Option.getD_some]
    rw [hf]
  · intro entries s1 hs hh
    unfold forgetResolve
    rw [if_neg (by simp [hs])]
    rw [if_neg (by simp)]
    simp only [Option.getD_some]
    rw [hh]
  · intro entries s1 e hs hh
    unfold forgetResolve
    rw [if_neg (by simp [hs])]
    rw [if_neg (by simp)]
    simp only [Option.getD_some]
    rw [hh]
  · intro entries s1 a b t hs hh
    unfold forgetResolve
    rw [if_neg (by simp [hs])]
    rw [if_neg (by simp)]
    simp only [Option.getD_some]
    rw [hh]
  · intro store tid tsum reason agent mid ts e h
    constructor
    · unfold forgetApply
      rw [h]
    · rfl

/-- C8, witness: by-id resolution succeeds although two entries share
the summary, and the summary lookup on that shared summary is rejected
as ambiguous. -/
theorem forget_resolution_witness :
    forgetResolve [exShareA, exShareB] (some "a") none
        = ForgetOutcome.resolved exShareA ∧
      forgetResolve [exShareA, exShareB] none (some "dup")
        = ForgetOutcome.ambiguous 2 := by
  have h := forget_resolution_ok
  refine ⟨h.2.2.1 [exShareA, exShareB] "a" none exShareA (by decide) (by decide), ?_⟩
  have ha := h.2.2.2.2.2.2.1 [exShareA, exShareB] "dup" exShareA exShareB []
    (by decide) (by decide)
  simpa using ha

/-! ### Claim C6 — export cache single-flight and invalidation -/

/-- C6 (confirmed): a call while a fresh cached value exists returns it
without starting an export; of two calls issued before either settles,
the first starts the single underlying export and the second joins the
same in-flight export, for exactly one invocation in total; settlement —
success or failure — clears the in-flight marker; and the invalidation
run by every successful `add`/`rebuild` clears the cached value
unconditionally. -/
theorem export_cache_single_flight_ok :
    (∀ (st : CacheState) (now expiresAt : Int) (entries : List MemoryEntry)
        (pid : Nat), st.cache = some (expiresAt, entries) → expiresAt > now →
      getAllEntriesCachedStep st now pid = (GetOutcome.hit entries, st)) ∧
    (∀ (now now2 : Int) (pid pid2 : Nat),
      (getAllEntriesCachedStep { cache := none, flight := none } now pid).1
          = GetOutcome.started pid ∧
        (getAllEntriesCachedStep { cache := none, flight := none } now pid).2
          = { cache := none, flight := some pid } ∧
        getAllEntriesCachedStep
            (getAllEntriesCachedStep { cache := none, flight := none } now pid).2
            now2 pid2
          = (GetOutcome.joined pid,
             (getAllEntriesCachedStep { cache := none, flight := none } now pid).2) ∧
        startedCount
            (getAllEntriesCachedStep { cache := none, flight := none } now pid).1 +
          startedCount (GetOutcome.joined pid) = 1) ∧
    (∀ (entries : List MemoryEntry) (now : Int),
      (settleExportOk entries now).flight = none) ∧
    (∀ st : CacheState, (settleExportErr st).flight = none) ∧
    (∀ st : CacheState, (invalidateExportCache st).cache = none) := by
  refine ⟨?_, ?_, ?_, ?_, ?_⟩
  · intro st now expiresAt entries pid hc hexp
    unfold getAllEntriesCachedStep
    rw [hc]
    simp [hexp]
  · intro now now2 pid pid2
    refine ⟨rfl, rfl, rfl, rfl⟩
  · intro entries now
    rfl
  · intro st
    rfl
  · intro st
    rfl

/-- C6, witness: with a fresh cached value the accessor returns it
directly. -/
theorem export_cache_single_flight_witness :
    getAllEntriesCachedStep { cache := some (10, [exKeep]), flight := none } 5 7
      = (GetOutcome.hit [exKeep], { cache := some (10, [exKeep]), flight := none }) :=
  export_cache_single_flight_ok.1 _ 5 10 [exKeep] 7 rfl (by decide)

/-! ### Claim C9 — circuit breaker -/

/-- C9 (confirmed): five consecutive hook failures open the breaker at
the time of the fifth failure; within the cooldown window every
hook-path call skips the subprocess path with the state unchanged; once
the cooldown has elapsed the breaker half-opens and the next hook call
attempts the subprocess; a hook success resets the counter and closes
the breaker for good; a probe failure reopens the breaker at the probe
time for a full new window; and a direct tool call always attempts the
subprocess whatever the breaker state. -/
theorem circuit_breaker_ok :
    (∀ t1 t2 t3 t4 t5 : Int,
      recordHookFailure (recordHookFailure (recordHookFailure (recordHookFailure
        (recordHookFailure breakerInit t1) t2) t3) t4) t5
        = { hookFailureCount := 5, breakerOpenedAt := t5 }) ∧
    (∀ (st : BreakerState) (now : Int) (b : Bool),
      breakerThreshold ≤ st.hookFailureCount →
      now - st.breakerOpenedAt < breakerResetMs →
      isBreakerOpen st now = true ∧ hookPathCall st now b = (false, st)) ∧
    (∀ (st : BreakerState) (now : Int) (b : Bool),
      breakerResetMs ≤ now - st.breakerOpenedAt →
      isBreakerOpen st now = false ∧ (hookPathCall st now b).1 = true) ∧
    (∀ (st : BreakerState) (now m : Int), isBreakerOpen st now = false →
      hookPathCall st now true = (true, recordHookSuccess) ∧
        isBreakerOpen recordHookSuccess m = false) ∧
    (∀ (st : BreakerState) (now m : Int),
      breakerThreshold ≤ st.hookFailureCount →
      breakerResetMs ≤ now - st.breakerOpenedAt →
      hookPathCall st now false
          = (true, { hookFailureCount := st.hookFailureCount + 1
                     breakerOpenedAt := now }) ∧
        (m - now < breakerResetMs →
          isBreakerOpen { hookFailureCount := st.hookFailureCount + 1
                          breakerOpenedAt := now } m = true)) ∧
    (∀ st : BreakerState, directToolCall st = (true, st)) := by
  refine ⟨?_, ?_, ?_, ?_, ?_, ?_⟩
  · intro t1 t2 t3 t4 t5
    have s1 : recordHookFailure breakerInit t1
        = { hookFailureCount := 1, breakerOpenedAt := 0 } := by
      unfold recordHookFailure breakerInit breakerThreshold
      norm_num
    have s2 : recordHookFailure { hookFailureCount := 1, breakerOpenedAt := 0 } t2
        = { hookFailureCount := 2, breakerOpenedAt := 0 } := by
      unfold recordHookFailure breakerThreshold
      norm_num
    have s3 : recordHookFailure { hookFailureCount := 2, breakerOpenedAt := 0 } t3
        = { hookFailureCount := 3, breakerOpenedAt := 0 } := by
      unfold recordHookFailure breakerThreshold
      norm_num
    have s4 : recordHookFailure { hookFailureCount := 3, breakerOpenedAt := 0 } t4
        = { hookFailureCount := 4, breakerOpenedAt := 0 } := by
      unfold recordHookFailure breakerThreshold
      norm_num
    have s5 : recordHookFailure { hookFailureCount := 4, breakerOpenedAt := 0 } t5
        = { hookFailureCount := 5, breakerOpenedAt := t5 } := by
      unfold recordHookFailure breakerThreshold
      norm_num
    rw [s1, s2, s3, s4, s5]
  · intro st now b h1 h2
    have h1a : (5 : Nat) ≤ st.hookFailureCount := h1
    have h2a : now - st.breakerOpenedAt < (60000 : Int) := h2
    have hopen : isBreakerOpen st now = true := by
      unfold isBreakerOpen
      rw [if_neg (by unfold breakerThreshold; omega),
        if_neg (by unfold breakerResetMs; omega)]
    exact ⟨hopen, by unfold hookPathCall; rw [hopen]; rfl⟩
  · intro st now b h
    have ha : (60000 : Int) ≤ now - st.breakerOpenedAt := h
    have hclosed : isBreakerOpen st now = false := by
      unfold isBreakerOpen
      by_cases hc : st.hookFailureCount < breakerThreshold
      · rw [if_pos hc]
      · rw [if_neg hc, if_pos (by unfold breakerResetMs; omega)]
    refine ⟨hclosed, ?_⟩
    unfold hookPathCall
    rw [hclosed]
    cases b <;> rfl
  · intro st now m h
    constructor
    · unfold hookPathCall
      rw [h]
      rfl
    · unfold isBreakerOpen recordHookSuccess breakerThreshold
      rw [if_pos (by norm_num)]
  · intro st now m h1 h2
    have h1a : (5 : Nat) ≤ st.hookFailureCount := h1
    have h2a : (60000 : Int) ≤ now - st.breakerOpenedAt := h2
    constructor
    · unfold hookPathCall
      have hclosed : isBreakerOpen st now = false := by
        unfold isBreakerOpen
        by_cases hc : st.hookFailureCount < breakerThreshold
        · rw [if_pos hc]
        · rw [if_neg hc, if_pos (by unfold breakerResetMs; omega)]
      rw [hclosed]
      have hrec : recordHookFailure st now
          = { hookFailureCount := st.hookFailureCount + 1
              breakerOpenedAt := now } := by
        unfold recordHookFailure
        rw [if_pos ⟨by unfold breakerThreshold; omega,
          Or.inr (by unfold breakerResetMs; omega)⟩]
      rw [hrec]
      simp
    · intro hm
      have hm2 : m - now < (60000 : Int) := hm
      unfold isBreakerOpen
      simp only [breakerThreshold, breakerResetMs]
      split_ifs with hA hB
      · omega
      · omega
      · rfl
  · intro st
    rfl

/-- C9, witness: the breaker opened at time `1000` with five failures
skips a hook call at `1500`, half-opens at `70000`, and a success
closes it. -/
theorem circuit_breaker_witness :
    hookPathCall { hookFailureCount := 5, breakerOpenedAt := 1000 } 1500 true
        = (false, { hookFailureCount := 5, breakerOpenedAt := 1000 }) ∧
      (hookPathCall { hookFailureCount := 5, breakerOpenedAt := 1000 } 70000 true).1
        = true ∧
      isBreakerOpen recordHookSuccess 99999 = false ∧
      directToolCall { hookFailureCount := 5, breakerOpenedAt := 1000 }
        = (true, { hookFailureCount := 5, breakerOpenedAt := 1000 }) := by
  have h := circuit_breaker_ok
  refine ⟨(h.2.1 _ 1500 true (by decide) (by decide)).2,
    (h.2.2.1 _ 70000 true (by decide)).2, ?_, h.2.2.2.2.2 _⟩
  have hc := h.2.2.2.1 { hookFailureCount := 0, breakerOpenedAt := 0 } 0 99999
    (by decide)
  exact hc.2

/-! ### Claim C10 — enrichment failure transparency -/

/-- C10 (confirmed): when the cached full-store export fails, both
enrichment helpers catch the failure and return the parsed inputs
unchanged, so search and timeline still succeed with unenriched data. -/
theorem enrichment_failure_transparent :
    (∀ (results : List SearchResult) (msg : String),
      enrichSearchResults results (Except.error msg) = results) ∧
    (∀ (entries : List MemoryEntry) (msg : String),
      enrichTimelineEntries entries (Except.error msg) = entries) := by
  constructor
  · intro results msg
    unfold enrichSearchResults
    split <;> rfl
  · intro entries msg
    unfold enrichTimelineEntries
    split <;> rfl

/-! ### Claim C1 — rebuild atomicity -/

/-- C1 (code bug).  The build phase is safe: a failed write into the
temporary store leaves every state of the trace with the original store
whole and ends with the temporary directory cleaned and the error
rethrown.  But the swap deletes the real store before installing
the replacement, so in the run where `renameSync` fails (cross-device)
and the fallback `cpSync` then also fails, the catch block's cleanup
removes the temporary store — the last complete copy — and the trace
ends with the original store destroyed, an incomplete copy at the store
path, and no intact copy of the data anywhere, contradicting both the
claim and the code's own comment that a failure leaves the original
store untouched. -/
theorem rebuild_swap_failure_leaves_zero_copies :
    ((rebuildTrace [exKeep, exRemove] [exKeep]
        { addFailsAt := some 0, renameOk := true, copyOk := true }).2 = true ∧
      (rebuildTrace [exKeep, exRemove] [exKeep]
        { addFailsAt := some 0, renameOk := true, copyOk := true }).1.getLast?
        = some { real := DirData.whole [exKeep, exRemove], temp := DirData.absent
                 tempDirPresent := false } ∧
      ∀ s ∈ (rebuildTrace [exKeep, exRemove] [exKeep]
          { addFailsAt := some 0, renameOk := true, copyOk := true }).1,
        s.real = DirData.whole [exKeep, exRemove]) ∧
    ((rebuildTrace [exKeep, exRemove] [exKeep]
        { addFailsAt := none, renameOk := false, copyOk := false }).2 = true ∧
      (rebuildTrace [exKeep, exRemove] [exKeep]
        { addFailsAt := none, renameOk := false, copyOk := false }).1.getLast?
        = some { real := DirData.incomplete, temp := DirData.absent
                 tempDirPresent := false } ∧
      ¬ ∀ s ∈ (rebuildTrace [exKeep, exRemove] [exKeep]
          { addFailsAt := none, renameOk := false, copyOk := false }).1,
          intactCopyExists [exKeep, exRemove] [exKeep] s = true) := by
  refine ⟨⟨by decide, by decide, by decide⟩, ⟨by decide, by decide, by decide⟩⟩
